import Mathlib

/-!
Shallow embedding of the stock-ledger and credential-store core of
`webinv.py` (Kalpadeep Industries inventory application).

The SQLite tables `users` and `inventory` are modelled as lists of rows
together with the AUTOINCREMENT counter.  Each operation of `AuthManager`,
`DatabaseManager` and `InventoryManager`, and the orchestration code in
`InventoryApp._handle_stock_submission` / `StockDisplay.render`, is
translated into a pure state-passing function.  REAL columns are modelled
by `Rat`, INTEGER columns by `Nat`/`Int`, TEXT columns by `String`,
NULLable columns by `Option`.
-/

namespace Webinv

/-- Model of the external `hashlib.sha256(s.encode()).hexdigest()` call: an
uninterpreted digest function.  The development relies only on digests of
equal inputs being equal, never on any property of the hex string. -/
def sha256_hexdigest (s : String) : String := "sha256." ++ s

/-- `Config.DEFAULT_PASSWORD` from the source. -/
def DEFAULT_PASSWORD : String := "123456"

/-- `Config.ADMIN_PASSWORD` from the source. -/
def ADMIN_PASSWORD : String := "admin123"

/-- One row of the `users` table (`Config.CREATE_USERS_TABLE`): id,
username, stored password digest, role, and the 0/1 INTEGER flag
`must_change_password`.  The `created_at` timestamp column plays no role
in any operation and is omitted. -/
structure UserRow where
  id : Nat
  username : String
  password : String
  role : String
  must_change_password : Nat
  deriving Repr, DecidableEq

/-- The `users` table with its AUTOINCREMENT id counter. -/
structure UsersTable where
  rows : List UserRow
  nextId : Nat
  deriving Repr, DecidableEq

/-- A freshly created, empty `users` table. -/
def emptyUsers : UsersTable := { rows := [], nextId := 1 }

/-- Model of `DatabaseManager._create_default_admin`: if no row with
username `admin` exists, insert one with the digest of
`Config.ADMIN_PASSWORD`, role `admin`, and `must_change_password = 0`. -/
def create_default_admin (s : UsersTable) : UsersTable :=
  if s.rows.any (fun r => r.username == "admin") then s
  else
    let row : UserRow :=
      { id := s.nextId, username := "admin",
        password := sha256_hexdigest ADMIN_PASSWORD, role := "admin",
        must_change_password := 0 }
    { rows := s.rows ++ [row], nextId := s.nextId + 1 }

/-- Model of `DatabaseManager.initialize`: the `CREATE TABLE IF NOT EXISTS`
statements are a no-op on the model state (the tables always exist as
lists), after which the default admin is seeded. -/
def dbInit (s : UsersTable) : UsersTable := create_default_admin s

/-- Model of the UNIQUE-constraint probe used for `sqlite3.IntegrityError`:
a row with the given username already exists. -/
def usernameTaken (s : UsersTable) (u : String) : Bool :=
  s.rows.any (fun r => r.username == u)

/-- Model of Python `str.strip()` on a character list: drop whitespace
from both ends. -/
def stripWS (l : List Char) : List Char :=
  ((l.dropWhile Char.isWhitespace).reverse.dropWhile Char.isWhitespace).reverse

/-- Model of Python `str.strip()`. -/
def pyStrip (s : String) : String := String.mk (stripWS s.toList)

/-- Model of `AuthManager.create_user`: reject empty / whitespace-only
usernames; otherwise INSERT the stripped username with the digest of the
default password, the given role and `must_change_password = 1`, turning
the UNIQUE-constraint `IntegrityError` into the failure message.  Returns
the new table state together with the `(bool, str)` result of the Python
function. -/
def create_user (s : UsersTable) (username : String) (role : String) :
    UsersTable × Bool × String :=
  if pyStrip username = "" then (s, false, "Username cannot be empty")
  else if usernameTaken s (pyStrip username) then (s, false, "Username already exists")
  else
    let row : UserRow :=
      { id := s.nextId, username := pyStrip username,
        password := sha256_hexdigest DEFAULT_PASSWORD, role := role,
        must_change_password := 1 }
    ({ rows := s.rows ++ [row], nextId := s.nextId + 1 },
     true, "User created successfully. Default password: " ++ DEFAULT_PASSWORD)

/-- Model of `AuthManager.update_password`: passwords under 6 characters
are rejected with no write; otherwise the SQL UPDATE sets the digest and
the `must_change_password` flag on every row whose username matches. -/
def update_password (s : UsersTable) (username new_password : String)
    (force_change : Nat) : UsersTable × Bool :=
  if new_password.length < 6 then (s, false)
  else
    ({ s with rows := s.rows.map (fun r =>
        if r.username = username then
          { r with password := sha256_hexdigest new_password,
                   must_change_password := force_change }
        else r) },
     true)

/-- Model of `AuthManager.delete_user`: refuse to delete the `admin`
account or the acting user's own account; otherwise run the SQL DELETE for
the username (a no-op when no such row exists) and report success. -/
def delete_user (s : UsersTable) (username current_user : String) :
    UsersTable × Bool × String :=
  if username = "admin" then (s, false, "Admin account cannot be deleted")
  else if username = current_user then (s, false, "You cannot delete yourself")
  else
    ({ s with rows := s.rows.filter (fun r => !(r.username == username)) },
     true, "User deleted successfully")

/-- One row of the `inventory` table (`Config.CREATE_INVENTORY_TABLE`).
REAL columns are `Rat`, the INTEGER rack/shelf columns are `Int`, NULLable
columns are `Option`; the unused `created_at` column is omitted.  The
table stores no `total_value` column. -/
structure StockRow where
  id : Nat
  item_master_id : Option String := none
  item_description : Option String := none
  grade_name : Option String := none
  group1_name : Option String := none
  group2_name : Option String := none
  section_name : Option String := none
  unit_weight : Option Rat := none
  source : String := "Spare RM"
  vendor_name : String := ""
  make : String := ""
  vehicle_number : String := ""
  invoice_date : String := ""
  project_name : String := ""
  thickness : Option Rat := none
  length : Option Rat := none
  width : Option Rat := none
  qr_code : String := ""
  snapshot : Option String := none
  latitude : Option Rat := none
  longitude : Option Rat := none
  rack : Option Int := none
  shelf : Option Int := none
  quantity : Rat := 0
  price : Rat := 0
  stock_date : String := ""
  added_by : String := ""
  deriving Repr, DecidableEq

/-- The `inventory` table with its AUTOINCREMENT id counter. -/
structure Inventory where
  rows : List StockRow
  nextId : Nat
  deriving Repr, DecidableEq

/-- A freshly created, empty `inventory` table. -/
def emptyInventory : Inventory := { rows := [], nextId := 1 }

/-- The values collected by `StockEntryForm.render` plus the item-master
columns copied in `InventoryApp._handle_stock_submission`.  The camera
input is modelled by the flag `hasSnapshot` (the bytes themselves never
influence control flow or stored fields other than via truthiness). -/
structure FormData where
  item_master_id : Option String := none
  item_description : Option String := none
  grade_name : Option String := none
  group1_name : Option String := none
  group2_name : Option String := none
  section_name : Option String := none
  unit_weight : Option Rat := none
  source : String := "Spare RM"
  vendor_name : String := ""
  make : String := ""
  vehicle_number : String := ""
  invoice_date : String := ""
  project_name : String := ""
  thickness : Option Rat := none
  length : Option Rat := none
  width : Option Rat := none
  qr_code : String := ""
  hasSnapshot : Bool := false
  latitude : Option Rat := none
  longitude : Option Rat := none
  rack : Option Int := none
  shelf : Option Int := none
  quantity : Rat := 0
  price : Rat := 0
  stock_date : String := ""
  deriving Repr, DecidableEq

/-- The characters `DataProcessor.safe_filename` keeps: alphanumeric,
dash, underscore. -/
def keepChar (c : Char) : Bool := c.isAlphanum || c == '-' || c == '_'

/-- Model of `DataProcessor.safe_filename`: falsy input gives `photo`;
otherwise keep only alphanumerics, dashes and underscores, strip
whitespace, and fall back to `photo` when nothing is left. -/
def safe_filename (text : String) : String :=
  if text = "" then "photo"
  else
    let stripped := stripWS (text.toList.filter keepChar)
    if stripped = [] then "photo" else String.mk stripped

/-- The fixed directory `Config.IMAGE_DIR` resolves to, relative to the
application directory. -/
def imagesDir : String := "images"

/-- Model of `InventoryManager.save_snapshot`: with no image data return
`none`; otherwise write the image under `Config.IMAGE_DIR` and return the
path string `images/<safe_filename(qr_code)>_<timestamp>.jpg`.  The
`datetime.now().strftime` result is passed in as the string `ts`. -/
def save_snapshot (image_data : Bool) (qr_code ts : String) : Option String :=
  if !image_data then none
  else some (imagesDir ++ "/" ++ (safe_filename qr_code ++ "_" ++ ts ++ ".jpg"))

/-- Model of `InventoryManager.add_stock_entry` together with the
`stock_data` dictionary built in `InventoryApp._handle_stock_submission`:
INSERT one row carrying the form values, the snapshot path and the acting
username, with the next AUTOINCREMENT id.  Always returns `true` (the
`except` branch models storage failure, which the embedding does not
inject). -/
def add_stock_entry (inv : Inventory) (d : FormData)
    (snapshot_path : Option String) (added_by : String) : Inventory × Bool :=
  let row : StockRow :=
    { id := inv.nextId,
      item_master_id := d.item_master_id,
      item_description := d.item_description,
      grade_name := d.grade_name,
      group1_name := d.group1_name,
      group2_name := d.group2_name,
      section_name := d.section_name,
      unit_weight := d.unit_weight,
      source := d.source,
      vendor_name := d.vendor_name,
      make := d.make,
      vehicle_number := d.vehicle_number,
      invoice_date := d.invoice_date,
      project_name := d.project_name,
      thickness := d.thickness,
      length := d.length,
      width := d.width,
      qr_code := d.qr_code,
      snapshot := snapshot_path,
      latitude := d.latitude,
      longitude := d.longitude,
      rack := d.rack,
      shelf := d.shelf,
      quantity := d.quantity,
      price := d.price,
      stock_date := d.stock_date,
      added_by := added_by }
  ({ rows := inv.rows ++ [row], nextId := inv.nextId + 1 }, true)

/-- Model of `InventoryApp._handle_stock_submission`: reject the form when
`quantity <= 0` or `price <= 0` (no write), otherwise save the snapshot
and insert the row. -/
def handle_stock_submission (inv : Inventory) (d : FormData)
    (username ts : String) : Inventory × Bool :=
  if d.quantity ≤ 0 ∨ d.price ≤ 0 then (inv, false)
  else add_stock_entry inv d (save_snapshot d.hasSnapshot d.qr_code ts) username

/-- Model of `InventoryManager.delete_stock_entry`: admins delete by id
alone, other roles delete by id and `added_by`; the function always
reports `true`. -/
def delete_stock_entry (inv : Inventory) (row_id : Nat)
    (username role : String) : Inventory × Bool :=
  if role = "admin" then
    ({ inv with rows := inv.rows.filter (fun r => !(r.id == row_id)) }, true)
  else
    let remaining := inv.rows.filter
      (fun r => !(r.id == row_id && r.added_by == username))
    ({ inv with rows := remaining }, true)

/-- Model of `InventoryManager.bulk_delete`: DELETE every row whose id
lies BETWEEN `start_id` AND `end_id`, then return `end_id - start_id + 1`
(computed over the integers, exactly as the Python expression). -/
def bulk_delete (inv : Inventory) (start_id end_id : Nat) : Inventory × Int :=
  let remaining := inv.rows.filter
    (fun r => !(start_id ≤ r.id && r.id ≤ end_id))
  ({ inv with rows := remaining }, (end_id : Int) - (start_id : Int) + 1)

/-- Outcome of the bulk-delete button in `StockDisplay.render`: either the
reversed-range error message, or the count reported by `bulk_delete`. -/
inductive RangeOutcome where
  | rejected (msg : String)
  | deleted (n : Int)
  deriving Repr, DecidableEq

/-- Model of the bulk-delete branch of `StockDisplay.render`: the
`start_id > end_id` check runs before `bulk_delete` is invoked, so a
reversed range never reaches the store. -/
def delete_range_request (inv : Inventory) (start_id end_id : Nat) :
    Inventory × RangeOutcome :=
  if start_id > end_id then
    (inv, RangeOutcome.rejected "Start ID cannot be greater than End ID")
  else
    let res := bulk_delete inv start_id end_id
    (res.1, RangeOutcome.deleted res.2)

/-- Insert a row into a list kept in descending id order. -/
def insertDescById (r : StockRow) : List StockRow → List StockRow
  | [] => [r]
  | x :: xs => if x.id ≤ r.id then r :: x :: xs else x :: insertDescById r xs

/-- Sort rows by id, descending: the model of `ORDER BY id DESC`. -/
def sortByIdDesc : List StockRow → List StockRow
  | [] => []
  | x :: xs => insertDescById x (sortByIdDesc xs)

/-- A row of the dataframe returned by `InventoryManager.load_stock_data`:
the stored row plus the derived `total_value` column. -/
structure DisplayRow where
  row : StockRow
  total_value : Rat
  deriving Repr, DecidableEq

/-- Model of `InventoryManager.load_stock_data`: read every row ordered by
id descending and, when the frame is non-empty, add the derived column
`total_value = quantity * price`. -/
def load_stock_data (inv : Inventory) : List DisplayRow :=
  if inv.rows.isEmpty then []
  else (sortByIdDesc inv.rows).map (fun r => ⟨r, r.quantity * r.price⟩)

/-- The inventory states reachable through the application's own write
paths: the empty store created at first run, form submissions, single
deletes, and admin range deletes. -/
inductive Reachable : Inventory → Prop where
  | start : Reachable emptyInventory
  | submit (s : Inventory) (fd : FormData) (u ts : String) :
      Reachable s → Reachable (handle_stock_submission s fd u ts).1
  | deleteOne (s : Inventory) (rid : Nat) (u role : String) :
      Reachable s → Reachable (delete_stock_entry s rid u role).1
  | deleteRange (s : Inventory) (a b : Nat) :
      Reachable s → Reachable (delete_range_request s a b).1

/-- The path-unsafe characters named by the specification: slash,
backslash, space, colon. -/
def pathUnsafe (c : Char) : Bool := c == '/' || c == '\\' || c == ' ' || c == ':'

/-- A concrete ledger row with id 1, used as evaluation input. -/
def gapRow1 : StockRow := { id := 1, quantity := 2, price := 3, added_by := "alice" }

/-- A concrete ledger row with id 3, used as evaluation input. -/
def gapRow3 : StockRow := { id := 3, quantity := 4, price := 5, added_by := "bob" }

/-- A concrete ledger holding ids 1 and 3 only (id 2 was deleted), used as
evaluation input. -/
def gapInv : Inventory := { rows := [gapRow1, gapRow3], nextId := 4 }

/-- A concrete display row of `gapInv`, used as evaluation input. -/
def gapDisplay1 : DisplayRow := ⟨gapRow1, gapRow1.quantity * gapRow1.price⟩

/-- A concrete valid form submission, used as evaluation input. -/
def demoForm : FormData := { quantity := 5, price := 10 }

/-- A concrete invalid form submission (zero quantity), used as evaluation
input. -/
def badForm : FormData := { quantity := 0, price := 10 }

/-- The ledger obtained by submitting `demoForm` to the empty store. -/
def demoInv : Inventory :=
  (handle_stock_submission emptyInventory demoForm "alice" "20250101_000000").1

/-- The row `demoInv` holds. -/
def demoStockRow : StockRow := { id := 1, quantity := 5, price := 10, added_by := "alice" }

/-- The display row `load_stock_data demoInv` returns. -/
def demoDisplay : DisplayRow :=
  ⟨demoStockRow, demoStockRow.quantity * demoStockRow.price⟩

/-- The seed row inserted by the first `DatabaseManager.initialize` call
on an empty store. -/
def adminSeedRow : UserRow :=
  { id := 1, username := "admin",
    password := sha256_hexdigest ADMIN_PASSWORD, role := "admin",
    must_change_password := 0 }

/-- A user store that has just been initialized: the seeded admin only. -/
def demoUsers : UsersTable := dbInit emptyUsers

/-- When a row with username `admin` is already present, `dbInit` is a
no-op on the state. -/
theorem dbInit_of_any_admin (t : UsersTable)
    (h : t.rows.any (fun r => r.username == "admin") = true) : dbInit t = t := by
  unfold dbInit create_default_admin
  simp [h]

/-- After `dbInit`, a row with username `admin` is always present. -/
theorem any_admin_dbInit (t : UsersTable) :
    (dbInit t).rows.any (fun r => r.username == "admin") = true := by
  unfold dbInit create_default_admin
  by_cases h : t.rows.any (fun r => r.username == "admin") = true
  · simp [h]
  · simp [h]

/-- C8: `DatabaseManager.initialize` is idempotent; starting from a store
with at most one `admin` row (the UNIQUE constraint) it leaves exactly one
`admin` row, and its first run on the empty store seeds the fixed admin
row: digest of `admin123`, role `admin`, `must_change_password = 0`. -/
theorem dbInit_spec (s : UsersTable) :
    dbInit (dbInit s) = dbInit s ∧
    (s.rows.countP (fun r => r.username == "admin") ≤ 1 →
      (dbInit s).rows.countP (fun r => r.username == "admin") = 1) ∧
    dbInit emptyUsers = { rows := [adminSeedRow], nextId := 2 } := by
  refine ⟨dbInit_of_any_admin _ (any_admin_dbInit s), ?_, rfl⟩
  intro hle
  by_cases h : s.rows.any (fun r => r.username == "admin") = true
  · rw [dbInit_of_any_admin s h]
    obtain ⟨a, ha, hpa⟩ := List.any_eq_true.mp h
    have hpos : 0 < s.rows.countP (fun r => r.username == "admin") :=
      List.countP_pos_iff.mpr ⟨a, ha, hpa⟩
    omega
  · have hz : s.rows.countP (fun r => r.username == "admin") = 0 := by
      refine List.countP_eq_zero.mpr ?_
      intro a ha hpa
      exact h (List.any_eq_true.mpr ⟨a, ha, hpa⟩)
    unfold dbInit create_default_admin
    simp [h, List.countP_append, hz]

/-- Witness for C8 at the empty store. -/
theorem dbInit_spec_witness :
    (dbInit emptyUsers).rows.countP (fun r => r.username == "admin") = 1 :=
  (dbInit_spec emptyUsers).2.1 (by decide)

/-- C6: `AuthManager.create_user` rejects empty or whitespace-only
usernames with no write, surfaces a duplicate username as the typed
failure `(false, "Username already exists")` with no write, and otherwise
appends exactly one row storing the digest of the fixed default password
with `must_change_password = 1`. -/
theorem create_user_spec (s : UsersTable) (u role : String) :
    (pyStrip u = "" → create_user s u role = (s, false, "Username cannot be empty")) ∧
    (pyStrip u ≠ "" → usernameTaken s (pyStrip u) = true →
      create_user s u role = (s, false, "Username already exists")) ∧
    (pyStrip u ≠ "" → usernameTaken s (pyStrip u) = false →
      (create_user s u role).2.1 = true ∧
      ∃ row : UserRow,
        (create_user s u role).1.rows = s.rows ++ [row] ∧
        row.username = pyStrip u ∧
        row.password = sha256_hexdigest DEFAULT_PASSWORD ∧
        row.role = role ∧
        row.must_change_password = 1) := by
  refine ⟨?_, ?_, ?_⟩
  · intro h
    simp [create_user, h]
  · intro h1 h2
    simp [create_user, h1, h2]
  · intro h1 h2
    refine ⟨by simp [create_user, h1, h2],
      { id := s.nextId, username := pyStrip u,
        password := sha256_hexdigest DEFAULT_PASSWORD, role := role,
        must_change_password := 1 },
      by simp [create_user, h1, h2], rfl, rfl, rfl, rfl⟩

/-- Witness for C6 on the freshly initialized store. -/
theorem create_user_spec_witness :
    create_user demoUsers "   " "user" = (demoUsers, false, "Username cannot be empty") ∧
    create_user demoUsers "admin" "user" = (demoUsers, false, "Username already exists") ∧
    (create_user demoUsers "bob" "user").2.1 = true :=
  ⟨(create_user_spec demoUsers "   " "user").1 (by decide),
   (create_user_spec demoUsers "admin" "user").2.1 (by decide) (by decide),
   ((create_user_spec demoUsers "bob" "user").2.2 (by decide) (by decide)).1⟩

/-- C7: `AuthManager.update_password` rejects passwords shorter than six
characters with no write; otherwise it reports success, every stored row
for that username now carries the digest of the new password and the given
`must_change_password` flag, rows of other usernames survive untouched,
and no row is added or dropped. -/
theorem update_password_spec (s : UsersTable) (u pw : String) (fc : Nat) :
    (pw.length < 6 → update_password s u pw fc = (s, false)) ∧
    (6 ≤ pw.length →
      (update_password s u pw fc).2 = true ∧
      (∀ r ∈ (update_password s u pw fc).1.rows, r.username = u →
        r.password = sha256_hexdigest pw ∧ r.must_change_password = fc) ∧
      (∀ r ∈ s.rows, r.username ≠ u → r ∈ (update_password s u pw fc).1.rows) ∧
      (update_password s u pw fc).1.rows.length = s.rows.length) := by
  constructor
  · intro h
    simp [update_password, h]
  · intro h
    have hn : ¬ pw.length < 6 := by omega
    refine ⟨by simp [update_password, hn], ?_, ?_, by simp [update_password, hn]⟩
    · intro r hr hu
      simp only [update_password, if_neg hn] at hr
      obtain ⟨r0, hr0, hf⟩ := List.mem_map.mp hr
      by_cases h0 : r0.username = u
      · rw [if_pos h0] at hf
        rw [← hf]
        exact ⟨rfl, rfl⟩
      · rw [if_neg h0] at hf
        exact absurd (hf ▸ hu) h0
    · intro r hr hu
      simp only [update_password, if_neg hn]
      have hf : (if r.username = u then
          { r with password := sha256_hexdigest pw,
                   must_change_password := fc } else r) = r := if_neg hu
      exact hf ▸ List.mem_map_of_mem _ hr

/-- Witness for C7 on the freshly initialized store. -/
theorem update_password_spec_witness :
    update_password demoUsers "admin" "12345" 0 = (demoUsers, false) ∧
    (update_password demoUsers "admin" "newpass1" 0).2 = true ∧
    (adminSeedRow.username = "admin" → adminSeedRow.username ≠ "admin" →
      adminSeedRow ∈ (update_password demoUsers "admin" "newpass1" 0).1.rows) :=
  ⟨(update_password_spec demoUsers "admin" "12345" 0).1 (by decide),
   ((update_password_spec demoUsers "admin" "newpass1" 0).2 (by decide)).1,
   fun _ h2 => (((update_password_spec demoUsers "admin" "newpass1" 0).2
     (by decide)).2.2.1 adminSeedRow (by decide) h2)⟩

/-- C10: when the target username is neither `admin` nor the acting user,
`AuthManager.delete_user` reports `(true, "User deleted successfully")`
regardless of the store contents, and when no row carries that username
the store is left entirely unchanged — deleting a non-existent user is
indistinguishable from deleting an existing one. -/
theorem delete_user_nonexistent_spec (s : UsersTable) (u cu : String)
    (h1 : u ≠ "admin") (h2 : u ≠ cu) :
    (delete_user s u cu).2 = (true, "User deleted successfully") ∧
    ((∀ r ∈ s.rows, r.username ≠ u) → (delete_user s u cu).1 = s) := by
  constructor
  · simp [delete_user, h1, h2]
  · intro h
    have hf : s.rows.filter (fun r => !(r.username == u)) = s.rows := by
      refine List.filter_eq_self.mpr ?_
      intro a ha
      simp [h a ha]
    simp [delete_user, h1, h2, hf]

/-- Witness for C10: deleting the absent user `ghost` from the freshly
initialized store succeeds verbatim and leaves the store unchanged. -/
theorem delete_user_nonexistent_spec_witness :
    (delete_user demoUsers "ghost" "admin").2 = (true, "User deleted successfully") ∧
    (delete_user demoUsers "ghost" "admin").1 = demoUsers :=
  ⟨(delete_user_nonexistent_spec demoUsers "ghost" "admin" (by decide) (by decide)).1,
   (delete_user_nonexistent_spec demoUsers "ghost" "admin" (by decide) (by decide)).2
     (by decide)⟩

/-- C2: `InventoryManager.delete_stock_entry` always reports `true`; a
stored row survives the call exactly when it does not match the requested
id with the actor being admin or the row's creator; and when the actor is
no admin and owns no row with that id, the ledger is left unchanged. -/
theorem delete_stock_entry_spec (inv : Inventory) (rid : Nat)
    (user role : String) :
    (delete_stock_entry inv rid user role).2 = true ∧
    (∀ r ∈ inv.rows,
      (r ∈ (delete_stock_entry inv rid user role).1.rows ↔
        ¬(r.id = rid ∧ (role = "admin" ∨ r.added_by = user)))) ∧
    (role ≠ "admin" → (∀ r ∈ inv.rows, r.id = rid → r.added_by ≠ user) →
      (delete_stock_entry inv rid user role).1 = inv) := by
  by_cases hrole : role = "admin"
  · refine ⟨by simp [delete_stock_entry, hrole], ?_, fun h => absurd hrole h⟩
    intro r hr
    simp [delete_stock_entry, hrole, List.mem_filter, hr]
  · refine ⟨by simp [delete_stock_entry, hrole], ?_, ?_⟩
    · intro r hr
      simp [delete_stock_entry, hrole, List.mem_filter, hr]
      tauto
    · intro _ h
      have hf : inv.rows.filter
          (fun r => !(r.id == rid && r.added_by == user)) = inv.rows := by
        refine List.filter_eq_self.mpr ?_
        intro a ha
        by_cases hid : a.id = rid
        · simp [hid, h a ha hid]
        · simp [hid]
      simp only [delete_stock_entry, if_neg hrole]
      rw [hf]

/-- Witness for C2: a non-admin cannot delete another user's row. -/
theorem delete_stock_entry_spec_witness :
    (delete_stock_entry gapInv 3 "alice" "user").2 = true ∧
    (gapRow3 ∈ (delete_stock_entry gapInv 3 "alice" "user").1.rows ↔
      ¬(gapRow3.id = 3 ∧ ("user" = "admin" ∨ gapRow3.added_by = "alice"))) ∧
    (delete_stock_entry gapInv 3 "alice" "user").1 = gapInv :=
  ⟨(delete_stock_entry_spec gapInv 3 "alice" "user").1,
   (delete_stock_entry_spec gapInv 3 "alice" "user").2.1 gapRow3 (by decide),
   (delete_stock_entry_spec gapInv 3 "alice" "user").2.2 (by decide)
     (by decide)⟩

/-- C3 counterexample: on a ledger holding only ids 1 and 3, the call
`bulk_delete 1 3` deletes the two rows in the range but returns 3, so the
returned value is not the number of rows deleted. -/
theorem bulk_delete_count_counterexample :
    (bulk_delete gapInv 1 3).2 = 3 ∧
    (gapInv.rows.filter (fun r => 1 ≤ r.id && r.id ≤ 3)).length = 2 ∧
    (bulk_delete gapInv 1 3).2 ≠
      ((gapInv.rows.filter (fun r => 1 ≤ r.id && r.id ≤ 3)).length : Int) := by
  refine ⟨rfl, rfl, by decide⟩

/-- C3 amended: `bulk_delete` removes exactly the rows whose id lies in
the inclusive range, but the value it returns is
`end_id - start_id + 1` — the size of the id range — independent of how
many rows were actually present and deleted. -/
theorem bulk_delete_range_size_spec (inv : Inventory) (a b : Nat) :
    (bulk_delete inv a b).2 = (b : Int) - (a : Int) + 1 ∧
    (∀ r ∈ inv.rows, a ≤ r.id → r.id ≤ b →
      r ∉ (bulk_delete inv a b).1.rows) ∧
    (∀ r ∈ inv.rows, ¬(a ≤ r.id ∧ r.id ≤ b) →
      r ∈ (bulk_delete inv a b).1.rows) := by
  refine ⟨rfl, ?_, ?_⟩
  · intro r _ h1 h2 hmem
    have hp := (List.mem_filter.mp hmem).2
    simp [h1, h2] at hp
  · intro r hr h
    refine List.mem_filter.mpr ⟨hr, ?_⟩
    simp
    omega

/-- Witness for C3's amended statement on the ledger with ids 1 and 3. -/
theorem bulk_delete_range_size_spec_witness :
    (bulk_delete gapInv 1 3).2 = (3 : Int) - (1 : Int) + 1 ∧
    gapRow1 ∉ (bulk_delete gapInv 1 3).1.rows :=
  ⟨(bulk_delete_range_size_spec gapInv 1 3).1,
   (bulk_delete_range_size_spec gapInv 1 3).2.1 gapRow1 (by decide) (by decide)
     (by decide)⟩

/-- C4: the bulk-delete flow of `StockDisplay.render` validates
`start_id <= end_id` before invoking the store — a reversed range is
answered with the error message and an untouched ledger — and an
equal-id range removes exactly the row carrying that id, if present. -/
theorem delete_range_request_spec (inv : Inventory) (a b : Nat) :
    (a > b → delete_range_request inv a b =
      (inv, RangeOutcome.rejected "Start ID cannot be greater than End ID")) ∧
    (a = b → ∀ r ∈ inv.rows,
      (r ∈ (delete_range_request inv a b).1.rows ↔ r.id ≠ a)) := by
  constructor
  · intro h
    simp [delete_range_request, h]
  · rintro rfl r hr
    have hn : ¬ a > a := lt_irrefl a
    simp [delete_range_request, hn, bulk_delete, List.mem_filter, hr]

/-- Witness for C4 on the ledger with ids 1 and 3. -/
theorem delete_range_request_spec_witness :
    delete_range_request gapInv 3 2 =
      (gapInv, RangeOutcome.rejected "Start ID cannot be greater than End ID") ∧
    (gapRow3 ∈ (delete_range_request gapInv 3 3).1.rows ↔ gapRow3.id ≠ 3) :=
  ⟨(delete_range_request_spec gapInv 3 2).1 (by decide),
   (delete_range_request_spec gapInv 3 3).2 rfl gapRow3 (by decide)⟩

/-- Membership in the insertion step of the descending sort. -/
theorem mem_insertDescById {a r : StockRow} {l : List StockRow} :
    a ∈ insertDescById r l ↔ a = r ∨ a ∈ l := by
  induction l with
  | nil => simp [insertDescById]
  | cons x xs ih =>
    by_cases h : x.id ≤ r.id
    · simp [insertDescById, h]
    · simp [insertDescById, h, ih]
      tauto

/-- The descending sort neither adds nor drops rows. -/
theorem mem_sortByIdDesc {a : StockRow} {l : List StockRow} :
    a ∈ sortByIdDesc l ↔ a ∈ l := by
  induction l with
  | nil => simp [sortByIdDesc]
  | cons x xs ih => simp [sortByIdDesc, mem_insertDescById, ih]

/-- Every display row produced by `load_stock_data` comes from a stored
row and carries the product of its quantity and price. -/
theorem row_mem_of_mem_load {inv : Inventory} {d : DisplayRow}
    (hd : d ∈ load_stock_data inv) :
    d.row ∈ inv.rows ∧ d.total_value = d.row.quantity * d.row.price := by
  unfold load_stock_data at hd
  by_cases h : inv.rows.isEmpty = true
  · rw [if_pos h] at hd
    simp at hd
  · rw [if_neg h] at hd
    obtain ⟨r, hr, hrd⟩ := List.mem_map.mp hd
    cases hrd
    exact ⟨mem_sortByIdDesc.mp hr, rfl⟩

/-- C5: every row returned by `load_stock_data` satisfies
`total_value = quantity * price` exactly, with the value derived at read
time from a stored row — the stored `inventory` row itself carries no
`total_value` column. -/
theorem load_stock_data_total_value (inv : Inventory) :
    ∀ d ∈ load_stock_data inv,
      d.total_value = d.row.quantity * d.row.price ∧ d.row ∈ inv.rows := by
  intro d hd
  exact ⟨(row_mem_of_mem_load hd).2, (row_mem_of_mem_load hd).1⟩

/-- Witness for C5 on the ledger with ids 1 and 3. -/
theorem load_stock_data_total_value_witness :
    gapDisplay1.total_value = gapDisplay1.row.quantity * gapDisplay1.row.price ∧
    gapDisplay1.row ∈ gapInv.rows :=
  load_stock_data_total_value gapInv gapDisplay1 (by
    rw [show load_stock_data gapInv =
      [⟨gapRow3, gapRow3.quantity * gapRow3.price⟩, gapDisplay1] from rfl]
    exact List.mem_cons_of_mem _ (List.mem_singleton_self _))

/-- Rows surviving a single delete were already stored. -/
theorem delete_stock_entry_rows_subset (inv : Inventory) (rid : Nat)
    (u role : String) :
    ∀ r ∈ (delete_stock_entry inv rid u role).1.rows, r ∈ inv.rows := by
  intro r hr
  unfold delete_stock_entry at hr
  by_cases h : role = "admin"
  · rw [if_pos h] at hr
    exact (List.mem_filter.mp hr).1
  · rw [if_neg h] at hr
    exact (List.mem_filter.mp hr).1

/-- Rows surviving a range delete were already stored. -/
theorem delete_range_request_rows_subset (inv : Inventory) (a b : Nat) :
    ∀ r ∈ (delete_range_request inv a b).1.rows, r ∈ inv.rows := by
  intro r hr
  unfold delete_range_request at hr
  by_cases h : a > b
  · rw [if_pos h] at hr
    exact hr
  · rw [if_neg h] at hr
    exact (List.mem_filter.mp hr).1

/-- A submission either leaves the rows unchanged or, when quantity and
price are positive, appends one row carrying exactly those values. -/
theorem handle_stock_submission_rows (inv : Inventory) (fd : FormData)
    (u ts : String) :
    (handle_stock_submission inv fd u ts).1.rows = inv.rows ∨
    ((0 < fd.quantity ∧ 0 < fd.price) ∧
      ∃ row : StockRow,
        (handle_stock_submission inv fd u ts).1.rows = inv.rows ++ [row] ∧
        row.quantity = fd.quantity ∧ row.price = fd.price) := by
  by_cases hv : fd.quantity ≤ 0 ∨ fd.price ≤ 0
  · left
    simp [handle_stock_submission, hv]
  · right
    push_neg at hv
    refine ⟨hv, ?_⟩
    rw [handle_stock_submission, if_neg ?_]
    · exact ⟨_, rfl, rfl, rfl⟩
    · push_neg
      exact hv

/-- On every reachable ledger state, every stored row has positive
quantity and price. -/
theorem pos_of_reachable {inv : Inventory} (h : Reachable inv) :
    ∀ r ∈ inv.rows, 0 < r.quantity ∧ 0 < r.price := by
  induction h with
  | start =>
    intro r hr
    simp [emptyInventory] at hr
  | submit s fd u ts _ ih =>
    intro r hr
    rcases handle_stock_submission_rows s fd u ts with he | ⟨hpos, row, he, hq, hp⟩
    · exact ih r (he ▸ hr)
    · rw [he, List.mem_append] at hr
      rcases hr with hr | hr
      · exact ih r hr
      · rw [List.mem_singleton] at hr
        subst hr
        exact ⟨hq ▸ hpos.1, hp ▸ hpos.2⟩
  | deleteOne s rid u role _ ih =>
    intro r hr
    exact ih r (delete_stock_entry_rows_subset s rid u role r hr)
  | deleteRange s a b _ ih =>
    intro r hr
    exact ih r (delete_range_request_rows_subset s a b r hr)

/-- C1: a submission with non-positive quantity or price is rejected with
no write, and consequently on every reachable ledger state every row
returned by `load_stock_data` has `quantity > 0` and `price > 0`. -/
theorem stock_positivity_invariant :
    (∀ (inv : Inventory) (fd : FormData) (u ts : String),
      (fd.quantity ≤ 0 ∨ fd.price ≤ 0) →
      handle_stock_submission inv fd u ts = (inv, false)) ∧
    (∀ inv : Inventory, Reachable inv → ∀ d ∈ load_stock_data inv,
      0 < d.row.quantity ∧ 0 < d.row.price) := by
  constructor
  · intro inv fd u ts h
    simp [handle_stock_submission, h]
  · intro inv h d hd
    exact pos_of_reachable h d.row (row_mem_of_mem_load hd).1

/-- Witness for C1: a zero-quantity form is rejected on the empty store,
and the one row displayed after a valid submission is positive. -/
theorem stock_positivity_invariant_witness :
    handle_stock_submission emptyInventory badForm "alice" "20250101_000000" =
      (emptyInventory, false) ∧
    (0 < demoDisplay.row.quantity ∧ 0 < demoDisplay.row.price) :=
  ⟨stock_positivity_invariant.1 emptyInventory badForm "alice" "20250101_000000"
     (Or.inl (by norm_num [badForm])),
   stock_positivity_invariant.2 demoInv
     (Reachable.submit emptyInventory demoForm "alice" "20250101_000000"
       Reachable.start)
     demoDisplay (by
       rw [show load_stock_data demoInv = [demoDisplay] from rfl]
       exact List.mem_singleton_self _)⟩

/-- Characters kept by the sanitizer are never path-unsafe. -/
theorem keepChar_not_unsafe (c : Char) (h : keepChar c = true) :
    pathUnsafe c = false := by
  cases hpu : pathUnsafe c
  · rfl
  · exfalso
    have hc : ((c = '/' ∨ c = '\\') ∨ c = ' ') ∨ c = ':' := by
      simpa [pathUnsafe] using hpu
    rcases hc with ((rfl | rfl) | rfl) | rfl <;> exact absurd h (by decide)

/-- Digits are never path-unsafe. -/
theorem isDigit_not_unsafe (c : Char) (h : c.isDigit = true) :
    pathUnsafe c = false := by
  cases hpu : pathUnsafe c
  · rfl
  · exfalso
    have hc : ((c = '/' ∨ c = '\\') ∨ c = ' ') ∨ c = ':' := by
      simpa [pathUnsafe] using hpu
    rcases hc with ((rfl | rfl) | rfl) | rfl <;> exact absurd h (by decide)

/-- Stripping whitespace only removes characters. -/
theorem mem_of_mem_stripWS {c : Char} {l : List Char} (h : c ∈ stripWS l) :
    c ∈ l := by
  unfold stripWS at h
  rw [List.mem_reverse] at h
  have h1 : c ∈ (l.dropWhile Char.isWhitespace).reverse :=
    (List.dropWhile_sublist _).mem h
  rw [List.mem_reverse] at h1
  exact (List.dropWhile_sublist _).mem h1

/-- Every character of a `safe_filename` result passed the keep filter. -/
theorem safe_filename_chars (text : String) :
    ∀ c ∈ (safe_filename text).toList, keepChar c = true := by
  intro c hc
  have hphoto : ∀ c ∈ ("photo").toList, keepChar c = true := by decide
  unfold safe_filename at hc
  by_cases h0 : text = ""
  · rw [if_pos h0] at hc
    exact hphoto c hc
  · rw [if_neg h0] at hc
    by_cases h1 : stripWS (text.toList.filter keepChar) = []
    · rw [if_pos h1] at hc
      exact hphoto c hc
    · rw [if_neg h1] at hc
      have hc2 : c ∈ text.toList.filter keepChar := mem_of_mem_stripWS hc
      exact (List.mem_filter.mp hc2).2

/-- String append acts as list append on the character data. -/
theorem toList_append (s t : String) : (s ++ t).toList = s.toList ++ t.toList :=
  String.data_append ..

/-- C9: `save_snapshot` stores nothing without image data; with image data
the stored value is the path of a file inside the fixed `images`
directory whose name is the sanitized QR value followed by the timestamp,
and that name contains no slash, backslash, space or colon; an empty QR
value falls back to the timestamp-based name `photo_<ts>.jpg`. -/
theorem save_snapshot_spec (qr ts : String)
    (hts : ∀ c ∈ ts.toList, c.isDigit = true ∨ c = '_') :
    save_snapshot false qr ts = none ∧
    ∃ fname : String,
      save_snapshot true qr ts = some (imagesDir ++ "/" ++ fname) ∧
      (∀ c ∈ fname.toList, pathUnsafe c = false) ∧
      (qr = "" → fname = "photo" ++ "_" ++ ts ++ ".jpg") := by
  refine ⟨rfl, safe_filename qr ++ "_" ++ ts ++ ".jpg", rfl, ?_, ?_⟩
  · intro c hc
    rw [toList_append, toList_append, toList_append] at hc
    rw [List.mem_append, List.mem_append, List.mem_append] at hc
    rcases hc with ((hc | hc) | hc) | hc
    · exact keepChar_not_unsafe c (safe_filename_chars qr c hc)
    · have : c = '_' := by simpa using hc
      subst this
      decide
    · rcases hts c hc with hd | rfl
      · exact isDigit_not_unsafe c hd
      · decide
    · have : c ∈ ['.', 'j', 'p', 'g'] := hc
      have hall : ∀ x ∈ ['.', 'j', 'p', 'g'], pathUnsafe x = false := by decide
      exact hall c this
  · intro h
    subst h
    rfl

/-- Witness for C9 on a QR value holding all four unsafe characters and a
`strftime`-shaped timestamp. -/
theorem save_snapshot_spec_witness :
    save_snapshot false "a/b\\c d:e" "20250101_120000" = none ∧
    ∃ fname : String,
      save_snapshot true "a/b\\c d:e" "20250101_120000" =
        some (imagesDir ++ "/" ++ fname) ∧
      (∀ c ∈ fname.toList, pathUnsafe c = false) ∧
      ("a/b\\c d:e" = "" → fname = "photo" ++ "_" ++ "20250101_120000" ++ ".jpg") :=
  save_snapshot_spec "a/b\\c d:e" "20250101_120000" (by decide)

end Webinv
